import Mathlib

/-!
Verification of the timeline subsystem of the Jane Austen storytelling
repository.  Two timeline implementations exist in the sources:

* `src/timeline_generator.py` — class `TimelineGenerator` with
  `extract_story_dates`, `_parse_date`, `_select_significant_paragraphs`,
  `_distribute_events`, `_extract_event_from_paragraph`, `_get_day_suffix`,
  `generate_additional_events`, `format_timeline_ascii`, `generate_timeline`;
* `src/simplified_storyteller.py` — method `generate_story_timeline`
  (introduction/conclusion bookend events, `months[min(idx % 3, 2)]` month
  cycling, `(idx * 7 + 5) % 28 + 1` day formula, 77-char + "..." cap).

Python runtime failures (KeyError, IndexError, ValueError) are modelled with
`Except String`.  Calls to the `random` module are modelled by explicit
oracle parameters standing for the random number generator's choices.
-/

/-- A timeline event: a display date string and an event description,
mirroring the Python dicts with keys 'date' and 'event'. -/
structure Event where
  date : String
  event : String
deriving DecidableEq, Repr

/-- A character record for `TimelineGenerator`: a Python dict that may or may
not have a 'name' key (`char.get('name', '')` / `'name' in char`). -/
structure CharT where
  name? : Option String
deriving DecidableEq, Repr

/-- A character record for the simplified storyteller: the callers there build
dicts that always carry 'name' and 'role'. -/
structure SChar where
  name : String
  role : String
deriving DecidableEq, Repr

/-- The `settings` dict of the simplified storyteller, accessed only through
`settings.get('location' | 'season' | 'time_period', default)`. -/
structure Settings where
  location? : Option String
  season? : Option String
  time_period? : Option String
deriving DecidableEq, Repr

/-! ## Character classes (ASCII model of the regex classes used) -/

/-- Model of `\d` / `str.isdigit` for ASCII decimal digits. -/
def isDigitChar (c : Char) : Bool := decide (48 ≤ c.toNat ∧ c.toNat ≤ 57)

/-- Model of the class `[a-z]`. -/
def isLowerAZ (c : Char) : Bool := decide (97 ≤ c.toNat ∧ c.toNat ≤ 122)

/-- Model of the class `[A-Z]`. -/
def isUpperAZ (c : Char) : Bool := decide (65 ≤ c.toNat ∧ c.toNat ≤ 90)

/-- Model of `\w` (ASCII: letters, digits, underscore). -/
def isWordChar (c : Char) : Bool :=
  isUpperAZ c || isLowerAZ c || isDigitChar c || decide (c.toNat = 95)

/-- Python `\s` (ASCII whitespace: space, tab, newline, carriage return,
vertical tab, form feed). -/
def isPySpace (c : Char) : Bool :=
  decide (c.toNat = 32 ∨ c.toNat = 9 ∨ c.toNat = 10 ∨ c.toNat = 13 ∨ c.toNat = 11 ∨ c.toNat = 12)

/-- Membership in the sentence-ending punctuation class `[.!?]`. -/
def isSentencePunct (c : Char) : Bool := c = '.' || c = '!' || c = '?'

/-- ASCII lowercasing of one character (model of `str.lower`). -/
def pyLowerChar (c : Char) : Char :=
  if isUpperAZ c then Char.ofNat (c.toNat + 32) else c

/-- Model of `str.lower` (ASCII). -/
def pyLower (s : String) : String := String.mk (s.data.map pyLowerChar)

/-- Model of `str.strip()`: drop leading and trailing whitespace. -/
def pyStrip (s : String) : String :=
  String.mk (((s.data.dropWhile isPySpace).reverse.dropWhile isPySpace).reverse)

/-- Split a character list at every occurrence of `sep`
(Python `str.split(sep)` for a one-character separator). -/
def splitCharAux (sep : Char) (acc : List Char) : List Char → List (List Char)
  | [] => [acc.reverse]
  | c :: rest =>
    if c = sep then acc.reverse :: splitCharAux sep [] rest
    else splitCharAux sep (c :: acc) rest

/-- Python `s.split(sep)` for a one-character separator. -/
def pySplitOnChar (sep : Char) (s : String) : List String :=
  (splitCharAux sep [] s.data).map String.mk

/-- Python `sep.join(items)`. -/
def joinWith (sep : String) : List String → String
  | [] => ""
  | [s] => s
  | s :: rest => s ++ sep ++ joinWith sep rest

/-! ## Decimal rendering and reading of naturals (Python `str`/`int`) -/

/-- Digit characters of `n`, most significant first; `fuel` bounds the
recursion depth (any `fuel ≥ n` is enough). -/
def natDigitsAux : Nat → Nat → List Char
  | 0, n => [Char.ofNat (48 + n % 10)]
  | fuel + 1, n =>
    if n < 10 then [Char.ofNat (48 + n)]
    else natDigitsAux fuel (n / 10) ++ [Char.ofNat (48 + n % 10)]

/-- Decimal digit characters of `n`, most significant first (Python `str(n)`). -/
def natDigits (n : Nat) : List Char := natDigitsAux n n

/-- Python `str(n)` for a natural number. -/
def pyStr (n : Nat) : String := String.mk (natDigits n)

/-- Value of a decimal digit string (Python `int` on a digit-only string). -/
def digitsVal (l : List Char) : Nat := l.foldl (fun a c => a * 10 + (c.toNat - 48)) 0

/-! ## Calendar (module-level `calendar_map` of timeline_generator.py) -/

/-- The list `list(calendar_map.values())` — the twelve month names in key order. -/
def monthNamesList : List String :=
  ["January", "February", "March", "April", "May", "June",
   "July", "August", "September", "October", "November", "December"]

/-- Lookup `calendar_map[m]` for a 1-based month number. -/
def monthName (m : Nat) : String := monthNamesList.getD (m - 1) ""

/-- Model of `list(calendar_map.values()).index(w)` — first index of a month name,
`none` modelling the ValueError Python raises when absent. -/
def monthIndexOf (w : String) : Option Nat := monthNamesList.findIdx? (fun x => x == w)

/-- Gregorian leap year test (as in Python's `datetime`). -/
def isLeap (y : Nat) : Bool := (y % 4 = 0 && y % 100 ≠ 0) || y % 400 = 0

/-- Number of days in month `m` of year `y` (0 for out-of-range months),
as `datetime`'s `_DAYS_IN_MONTH` table. -/
def daysInMonth (y m : Nat) : Nat :=
  if m = 1 then 31 else if m = 2 then (if isLeap y then 29 else 28)
  else if m = 3 then 31 else if m = 4 then 30 else if m = 5 then 31
  else if m = 6 then 30 else if m = 7 then 31 else if m = 8 then 31
  else if m = 9 then 30 else if m = 10 then 31 else if m = 11 then 30
  else if m = 12 then 31 else 0

/-- Days in year `y` strictly before month `m`. -/
def daysBeforeMonth (y m : Nat) : Nat :=
  ((List.range (m - 1)).map (fun i => daysInMonth y (i + 1))).sum

/-- Proleptic Gregorian ordinal of a date, as `datetime.toordinal`:
day 1 is 0001-01-01. -/
def toOrdinal (y m d : Nat) : Nat :=
  365 * (y - 1) + (y - 1) / 4 - (y - 1) / 100 + (y - 1) / 400 + daysBeforeMonth y m + d

/-- Walk the months of year `y` to locate a 1-based day-of-year `d`
(fuel-bounded scan used by `fromOrdinal`). -/
def findMonthDay (y : Nat) : Nat → Nat → Nat → Nat × Nat
  | 0, m, d => (m, d)
  | fuel + 1, m, d => if d ≤ daysInMonth y m then (m, d) else findMonthDay y fuel (m + 1) (d - daysInMonth y m)

/-- Inverse of `toOrdinal` (the `_ord2ymd` computation of Python's
`datetime`), returning `(year, month, day)`. -/
def fromOrdinal (ord : Nat) : Nat × Nat × Nat :=
  let n := ord - 1
  let n400 := n / 146097
  let r400 := n % 146097
  let n100 := r400 / 36524
  let r100 := r400 % 36524
  let n4 := r100 / 1461
  let r4 := r100 % 1461
  let n1 := r4 / 365
  let r1 := r4 % 365
  if n1 = 4 ∨ n100 = 4 then
    (400 * n400 + 100 * n100 + 4 * n4 + n1, 12, 31)
  else
    let year := 400 * n400 + 100 * n100 + 4 * n4 + n1 + 1
    let md := findMonthDay year 12 1 (r1 + 1)
    (year, md.1, md.2)

/-- The `datetime(y, m, d)` constructor: validates ranges exactly as Python
does (`MINYEAR 1 ≤ y ≤ MAXYEAR 9999`, month and day in range), raising
ValueError otherwise. -/
def pyDatetime (y m d : Nat) : Except String (Nat × Nat × Nat) :=
  if 1 ≤ y ∧ y ≤ 9999 ∧ 1 ≤ m ∧ m ≤ 12 ∧ 1 ≤ d ∧ d ≤ daysInMonth y m then
    Except.ok (y, m, d)
  else Except.error "ValueError: date value out of range"

/-! ## `_get_day_suffix` and Regency date formatting (timeline_generator.py) -/

/-- Embedding of `_get_day_suffix`: English ordinal suffix with the 11th–13th exception. -/
def get_day_suffix (day : Nat) : String :=
  if 10 ≤ day % 100 ∧ day % 100 ≤ 20 then "th"
  else if day % 10 = 1 then "st"
  else if day % 10 = 2 then "nd"
  else if day % 10 = 3 then "rd"
  else "th"

/-- The f-string `"{month_name} {day}{suffix}, {year}"` used by
`extract_story_dates` for every date it emits. -/
def formatRegencyDate (year m d : Nat) : String :=
  monthName m ++ " " ++ pyStr d ++ get_day_suffix d ++ ", " ++ pyStr year

/-! ## The date regex `(\w+) (\d+)[a-z]{2}, (\d{4})` and `_parse_date` -/

/-- Matching `(\w+) ` at the start of `l`: the greedy word-character run (which must
be nonempty) followed by one space; returns the run and what follows the
space.  No backtracking is needed: a space is not a word character. -/
def matchWordSpace (l : List Char) : Option (List Char × List Char) :=
  if (l.takeWhile isWordChar).isEmpty then none
  else
    match l.dropWhile isWordChar with
    | ' ' :: r2 => some (l.takeWhile isWordChar, r2)
    | _ => none

/-- Matching `(\d+)` at the start of `l`: the greedy nonempty digit run and the rest.
No backtracking is needed: a lowercase letter is not a digit. -/
def matchDigits (l : List Char) : Option (List Char × List Char) :=
  if (l.takeWhile isDigitChar).isEmpty then none
  else some (l.takeWhile isDigitChar, l.dropWhile isDigitChar)

/-- Matching `[a-z]{2}, ` at the start of `l`; returns what follows. -/
def matchSuffixCommaSpace : List Char → Option (List Char)
  | a :: b :: ',' :: ' ' :: r5 => if isLowerAZ a && isLowerAZ b then some r5 else none
  | _ => none

/-- Matching `(\d{4})` at the start of `l` (trailing characters ignored, as with
`re.match`). -/
def matchYear4 : List Char → Option (List Char)
  | y1 :: y2 :: y3 :: y4 :: _ =>
    if isDigitChar y1 && isDigitChar y2 && isDigitChar y3 && isDigitChar y4 then
      some [y1, y2, y3, y4]
    else none
  | _ => none

/-- Model of `re.match` of the pattern `(\w+) (\d+)[a-z]{2}, (\d{4})` against the
start of `s`, one sub-pattern at a time. -/
def pyRegexDateMatch (s : String) : Option (String × String × String) := do
  let (w, r2) ← matchWordSpace s.data
  let (ds, r3) ← matchDigits r2
  let r5 ← matchSuffixCommaSpace r3
  let yy ← matchYear4 r5
  pure (String.mk w, String.mk ds, String.mk yy)

/-- Embedding of `_parse_date`: parse a Regency-style date string for sorting.  On a regex
match, looks the month up in `calendar_map` (ValueError when absent) and
builds a `datetime`; on no match, returns the `datetime(1800, 1, 1)`
fallback. -/
def parse_date (s : String) : Except String (Nat × Nat × Nat) :=
  match pyRegexDateMatch s with
  | some (mStr, dStr, yStr) =>
    match monthIndexOf mStr with
    | some i => pyDatetime (digitsVal yStr.data) (i + 1) (digitsVal dStr.data)
    | none => Except.error "ValueError: month not in calendar_map"
  | none => Except.ok (1800, 1, 1)

/-- Scalar encoding of a `(year, month, day)` triple that is strictly
monotone for the lexicographic datetime order on in-range dates. -/
def dateKeyEnc (t : Nat × Nat × Nat) : Nat := t.1 * 10000 + t.2.1 * 100 + t.2.2

/-- Chronological (lexicographic) order on `(year, month, day)` triples. -/
def dateLE (t u : Nat × Nat × Nat) : Prop :=
  t.1 < u.1 ∨ (t.1 = u.1 ∧ (t.2.1 < u.2.1 ∨ (t.2.1 = u.2.1 ∧ t.2.2 ≤ u.2.2)))

/-- The `(year, month, day)` key an event sorts by (fallback 1800-01-01; the
error case of `parse_date` never occurs in a successfully sorted list). -/
def parsed_triple (e : Event) : Nat × Nat × Nat :=
  match parse_date e.date with
  | Except.ok t => t
  | Except.error _ => (1800, 1, 1)

/-! ## Python container semantics helpers -/

/-- An `Except`-valued `mapM` with a direct structural recursion (used in place
of the library `mapM` so induction is straightforward). -/
def exMapM (f : α → Except String β) : List α → Except String (List β)
  | [] => Except.ok []
  | x :: xs => do
    let y ← f x
    let ys ← exMapM f xs
    Except.ok (y :: ys)

/-- Python list indexing `l[i]` with negative-index wrap-around; out of
range raises IndexError. -/
def pyGetStr (l : List String) (i : Int) : Except String String :=
  if 0 ≤ i then
    match l.get? i.toNat with
    | some x => Except.ok x
    | none => Except.error "IndexError: list index out of range"
  else if i.natAbs ≤ l.length then Except.ok (l.getD (l.length - i.natAbs) "")
  else Except.error "IndexError: list index out of range"

/-- Python `range(a, b)` over possibly negative bounds. -/
def pyRangeInt (a b : Int) : List Int :=
  if a < b then (List.range (b - a).toNat).map (fun k => a + k) else []

/-- Python `range(0, stop, step)`. -/
def pyRangeStep (stop step : Nat) : List Nat :=
  if step = 0 then [] else (List.range ((stop + step - 1) / step)).map (fun k => k * step)

/-- Is `n` a prefix of `l`? (helper for the substring test). -/
def prefixOfL : List Char → List Char → Bool
  | [], _ => true
  | _ :: _, [] => false
  | a :: as, b :: bs => a = b && prefixOfL as bs

/-- Does `n` occur contiguously in `l`? -/
def infixOfL (n : List Char) : List Char → Bool
  | [] => n.isEmpty
  | c :: rest => prefixOfL n (c :: rest) || infixOfL n rest

/-- Python `needle in haystack` on strings (substring containment). -/
def pyIn (needle haystack : String) : Bool := infixOfL needle.data haystack.data

/-- Python truncated-toward-zero `int(a / b)` for integers whose exact
quotient is computed here in exact arithmetic (the quotients taken in the
sources are small enough that the float division is exact to truncation). -/
def pyIntTrunc (a b : Int) : Int :=
  if (decide (0 ≤ a)) = (decide (0 ≤ b)) then ((a.natAbs / b.natAbs : Nat) : Int)
  else -((a.natAbs / b.natAbs : Nat) : Int)

/-- Model of `random.choice(l)` with the RNG modelled by `choiceO`: returns an element
of `l`, IndexError on an empty sequence. -/
def pyChoice (choiceO : List Nat → Nat) (l : List Nat) : Except String Nat :=
  match l with
  | [] => Except.error "IndexError: list index out of range"
  | _ :: _ => Except.ok (l.getD (choiceO l % l.length) 0)

/-- Splitting a story into non-blank paragraphs:
`[p for p in story.split('\n') if p.strip()]` (identical in both sources). -/
def split_paragraphs (story : String) : List String :=
  (pySplitOnChar '\n' story).filter (fun p => !(pyStrip p).data.isEmpty)

/-! ## timeline_generator.py — `TimelineGenerator` -/

/-- Lookup `self.seasons[season]['months']` — `none` models the KeyError raised on
a key that is not one of the four lowercase season names. -/
def seasons_months (season : String) : Option (List String) :=
  if season = "spring" then some ["March", "April", "May"]
  else if season = "summer" then some ["June", "July", "August"]
  else if season = "autumn" then some ["September", "October", "November"]
  else if season = "winter" then some ["December", "January", "February"]
  else none

/-- Lookup `self.seasons[season]['activities']`. -/
def seasons_activities (season : String) : Option (List String) :=
  if season = "spring" then some ["garden parties", "country walks", "early Season events"]
  else if season = "summer" then some ["balls", "picnics", "visits to Bath", "seaside excursions"]
  else if season = "autumn" then some ["harvest festivals", "hunting parties", "assemblies"]
  else if season = "winter" then some ["Christmas celebrations", "indoor gatherings", "reading parties"]
  else none

/-- The keyword set of `_select_significant_paragraphs`. -/
def keywords : List String :=
  ["met", "arrived", "discovered", "realized", "confessed", "revealed",
   "ball", "dance", "party", "letter", "visit"]

/-- Scaled distance `2 * |idx - (s + e) / 2|` — comparing these is the same
as comparing the float distances `abs(idx - (section_start + section_end)/2)`
in `_distribute_events` (midpoints are halves, exactly representable). -/
def dist2 (idx s e : Nat) : Nat := ((2 * idx : Int) - ((s : Int) + e)).natAbs

/-- Strict lexicographic comparison on (distance, index) pairs, the order in
which Python sorts the `distances` tuples. -/
def lexLt (p q : Nat × Nat) : Bool := p.1 < q.1 || (p.1 = q.1 && p.2 < q.2)

/-- Model of `distances.sort(); distances[0]` — lexicographic minimum of a nonempty
list given as head and tail. -/
def lexMinD (l : List (Nat × Nat)) (b : Nat × Nat) : Nat × Nat :=
  l.foldl (fun best y => if lexLt y best then y else best) b

/-- One iteration of the `_distribute_events` loop: the pick for section
`i` of `[0, story_length)` (boundaries `int(i * story_length / num_events)`,
computed in exact arithmetic). -/
def distribute_section_pick (candidate_indices : List Nat) (num_events story_length : Nat)
    (choiceO : List Nat → Nat) (i : Nat) : Except String Nat :=
  if (candidate_indices.filter (fun idx =>
      decide (i * story_length / num_events ≤ idx ∧
        idx < (i + 1) * story_length / num_events))).isEmpty then
    match candidate_indices.map (fun idx =>
        (dist2 idx (i * story_length / num_events) ((i + 1) * story_length / num_events), idx)) with
    | [] => Except.error "IndexError: list index out of range"
    | d :: ds => Except.ok (lexMinD ds d).2
  else
    pyChoice choiceO (candidate_indices.filter (fun idx =>
      decide (i * story_length / num_events ≤ idx ∧
        idx < (i + 1) * story_length / num_events)))

/-- Embedding of `_distribute_events`: with at most `num_events` candidates they are
returned unchanged; otherwise one pick per section — a random choice among
the section's candidates, or, for a candidate-free section, the candidate
closest to the section midpoint (ties to the smaller index via the tuple
sort of `distances`). -/
def distribute_events (candidate_indices : List Nat) (num_events story_length : Nat)
    (choiceO : List Nat → Nat) : Except String (List Nat) :=
  if candidate_indices.length ≤ num_events then Except.ok candidate_indices
  else
    exMapM (distribute_section_pick candidate_indices num_events story_length choiceO)
      (List.range num_events)

/-- Embedding of `_select_significant_paragraphs`: scan paragraphs from
`start_idx = min(4, len - 1)` (an Int: −1 on an empty story, so the first
subscript `paragraphs[-1]` raises IndexError there) for character names or
action keywords, then distribute. -/
def select_significant_paragraphs (paragraphs : List String) (characters : List CharT)
    (num_events : Nat) (choiceO : List Nat → Nat) : Except String (List Nat) := do
  let n : Int := paragraphs.length
  let start_idx : Int := min 4 (n - 1)
  let flags ← exMapM (fun i => do
      let p ← pyGetStr paragraphs i
      let para := pyLower p
      let has_character := (characters.filter (fun c => c.name?.isSome)).any
        (fun c => pyIn (pyLower (c.name?.getD "")) para)
      let has_keywords := keywords.any (fun k => pyIn k para)
      Except.ok (i, has_character || has_keywords)) (pyRangeInt start_idx n)
  let significant_indices := (flags.filter (fun x => x.2)).map (fun x => x.1.toNat)
  if num_events ≤ significant_indices.length then
    distribute_events significant_indices num_events paragraphs.length choiceO
  else
    distribute_events ((pyRangeInt start_idx n).map (fun i => i.toNat)) num_events paragraphs.length choiceO

/-- The `(?:\s|$)` test: the remaining text is empty or starts with
whitespace. -/
def nextSpaceOrEnd : List Char → Bool
  | [] => true
  | d :: _ => isPySpace d

/-- The sentence regex search of `_extract_event_from_paragraph`:
`re.search(r'^(.+?[.!?])(?:\s|$)', paragraph)`.  The lazy `.+?` makes the
match end at the first position `j ≥ 1` holding `.`, `!` or `?` followed by
whitespace or the end; `acc` carries the scanned prefix. -/
def scanSentence (acc : List Char) : List Char → Option (List Char)
  | [] => none
  | c :: rest =>
    if isSentencePunct c && !acc.isEmpty && nextSpaceOrEnd rest then
      some (acc ++ [c])
    else scanSentence (acc ++ [c]) rest

/-- Embedding of `_extract_event_from_paragraph`: paragraphs over 200 characters are
replaced by their first sentence when it is under 150 characters, else by
their first 150 characters plus an ellipsis. -/
def extract_event_from_paragraph (paragraph : String) : String :=
  if paragraph.length > 200 then
    match scanSentence [] paragraph.data with
    | some fs => if fs.length < 150 then String.mk fs
                 else String.mk (paragraph.data.take 150) ++ "..."
    | none => String.mk (paragraph.data.take 150) ++ "..."
  else paragraph

/-- The ten generic Regency filler events of `generate_additional_events`. -/
def generic_events : List String :=
  ["A letter arrives with unexpected news",
   "An important visitor calls at the house",
   "A misunderstanding leads to social awkwardness",
   "Rumors circulate about a new arrival in the neighborhood",
   "A chance encounter reveals new information",
   "A dinner party with distinguished guests",
   "A private conversation overheard by accident",
   "An invitation arrives for an upcoming social event",
   "A carriage ride with surprising revelations",
   "A walk in the grounds leads to new acquaintances"]

/-- Embedding of `generate_additional_events`: pool generic, character-specific and
season-specific filler events and sample `num_events` of them
(`random.sample` modelled by the index oracle `sampleO`). -/
def generate_additional_events (season : String) (characters : List CharT)
    (num_events : Nat) (sampleO : Nat → Nat) : Except String (List String) :=
  match seasons_activities season with
  | none => Except.error "KeyError: season"
  | some season_activities =>
    let character_events := (characters.filter (fun c => c.name?.isSome)).flatMap
      (fun c => [(c.name?.getD "") ++ " receives an unexpected invitation",
                 "A revealing conversation with " ++ (c.name?.getD "")])
    let season_events := season_activities.flatMap
      (fun activity => ["Preparations begin for the " ++ activity,
                        "Attendance at the " ++ activity ++ " leads to new acquaintances"])
    let all_events := generic_events ++ character_events ++ season_events
    Except.ok ((List.range (min num_events all_events.length)).map
      (fun i => all_events.getD (sampleO i % all_events.length) ""))

/-- Stable insertion of a keyed event after all entries with key ≤ its key
(so equal keys keep their original relative order, as Python's stable sort). -/
def insertByKey (x : Nat × Event) : List (Nat × Event) → List (Nat × Event)
  | [] => [x]
  | y :: ys => if y.1 ≤ x.1 then y :: insertByKey x ys else x :: y :: ys

/-- Stable insertion sort on (key, event) pairs. -/
def insSortByKey (l : List (Nat × Event)) : List (Nat × Event) :=
  l.foldl (fun acc x => insertByKey x acc) []

/-- Model of `events.sort(key=lambda x: self._parse_date(x['date']))`: compute every
key (propagating any ValueError from `_parse_date`, as Python's sort would)
and stable-sort by the chronological key. -/
def pySortEvents (events : List Event) : Except String (List Event) := do
  let keyed ← exMapM (fun e => (parse_date e.date).map (fun t => (dateKeyEnc t, e))) events
  Except.ok ((insSortByKey keyed).map (fun p => p.2))

/-- The unsorted event assembly of `extract_story_dates`: paragraph-derived
events dated by linear interpolation over the season's day range, followed
by the additional filler events at random in-range offsets
(`random.randint(0, date_range)` — a ValueError when `date_range < 0`). -/
def extract_story_dates_build (story : String) (characters : List CharT) (season : String)
    (regency_year : Nat) (numO : Nat) (choiceO : List Nat → Nat) (sampleO : Nat → Nat)
    (randO : Nat → Nat) : Except String (List Event) := do
  let paragraphs := split_paragraphs story
  let num_events := 5 + numO % 3
  let significant_paragraphs ← select_significant_paragraphs paragraphs characters num_events choiceO
  let months ← match seasons_months season with
    | some ms => Except.ok ms
    | none => Except.error "KeyError: season"
  let startM ← match monthIndexOf (months.headD "") with
    | some i => Except.ok (i + 1)
    | none => Except.error "ValueError: month not in calendar_map"
  let endM ← match monthIndexOf (months.getLastD "") with
    | some i => Except.ok (i + 1)
    | none => Except.error "ValueError: month not in calendar_map"
  let start_ord := toOrdinal regency_year startM 1
  let end_ord := toOrdinal regency_year endM 28
  let date_range : Int := (end_ord : Int) - (start_ord : Int)
  let events1 := significant_paragraphs.enum.map (fun p =>
    let offset : Int := if num_events > 1 then pyIntTrunc ((p.1 : Int) * date_range) ((num_events : Int) - 1) else 0
    let md := fromOrdinal ((start_ord : Int) + offset).toNat
    let event_desc := extract_event_from_paragraph (paragraphs.getD p.2 "")
    Event.mk (formatRegencyDate regency_year md.2.1 md.2.2) event_desc)
  let additional_events ← generate_additional_events season characters 2 sampleO
  let events2 ← exMapM (fun p =>
    if date_range < 0 then Except.error "ValueError: empty range for randrange()"
    else
      let days_offset : Nat := randO p.1 % (date_range.toNat + 1)
      let md := fromOrdinal (start_ord + days_offset)
      Except.ok (Event.mk (formatRegencyDate regency_year md.2.1 md.2.2) p.2)) additional_events.enum
  Except.ok (events1 ++ events2)

/-- Embedding of `extract_story_dates`: build the events, then sort them by parsed date. -/
def extract_story_dates (story : String) (characters : List CharT) (season : String)
    (regency_year : Nat) (numO : Nat) (choiceO : List Nat → Nat) (sampleO : Nat → Nat)
    (randO : Nat → Nat) : Except String (List Event) :=
  extract_story_dates_build story characters season regency_year numO choiceO sampleO randO >>=
    pySortEvents

/-- Model of the `str.rjust`-style right justification of the date column. -/
def rjust (s : String) (w : Nat) : String :=
  String.mk (List.replicate (w - s.length) ' ') ++ s

/-- Embedding of `format_timeline_ascii`: right-justified date column, `┬─` connectors,
`│` continuation lines between rows.  Event text is emitted verbatim — this
renderer performs no truncation or wrapping. -/
def format_timeline_ascii (events : List Event) : String :=
  if events.isEmpty then "No events to display in timeline."
  else
    let date_width := (events.map (fun e => e.date.length)).foldl max 0 + 2
    let timeline := (events.enum.map (fun p =>
      let date_part := rjust p.2.date date_width
      let row := date_part ++ " ┬─ " ++ p.2.event
      if p.1 < events.length - 1 then
        [row, String.mk (List.replicate date_width ' ') ++ " │"]
      else [row])).flatten
    joinWith "\n" timeline

/-- Embedding of `generate_timeline`: set the characters, extract the dated events,
render them as ASCII. -/
def generate_timeline (story : String) (characters : List CharT) (season : String)
    (regency_year : Nat) (numO : Nat) (choiceO : List Nat → Nat) (sampleO : Nat → Nat)
    (randO : Nat → Nat) : Except String String :=
  (extract_story_dates story characters season regency_year numO choiceO sampleO randO).map
    format_timeline_ascii

/-! ## simplified_storyteller.py — `generate_story_timeline` -/

/-- Lookup `season_months.get(season.lower(), ['January', 'February', 'March'])`:
case-insensitive lookup with a silent default window. -/
def season_months_get (season : String) : List String :=
  let s := pyLower season
  if s = "spring" then ["March", "April", "May"]
  else if s = "summer" then ["June", "July", "August"]
  else if s = "autumn" then ["September", "October", "November"]
  else if s = "winter" then ["December", "January", "February"]
  else ["January", "February", "March"]

/-- Model of `next((c for c in characters if c['role'] == "Protagonist"), characters[0])`
once `characters[0]` is known to exist. -/
def simplified_protagonist (c0 : SChar) (characters : List SChar) : SChar :=
  (characters.find? (fun c => c.role == "Protagonist")).getD c0

/-- The four templated conclusion sentences of `generate_story_timeline`. -/
def conclusion_options (location time_period : String) : List String :=
  ["The events in " ++ location ++ " reach their conclusion.",
   "The story in " ++ location ++ " comes to a resolution.",
   "Our characters find resolution to their journey in " ++ location ++ ".",
   "The tale of " ++ time_period ++ " in " ++ location ++ " concludes."]

/-- Date string of a paragraph-derived timeline entry:
`f"{months[min(idx % 3, 2)]} {(idx * 7 + 5) % 28 + 1}"`. -/
def para_date_str (months : List String) (idx : Nat) : String :=
  months.getD (min (idx % 3) 2) "" ++ " " ++ pyStr ((idx * 7 + 5) % 28 + 1)

/-- Raw event text of a paragraph: first sentence (split on '.') of a long
paragraph, the paragraph itself otherwise. -/
def event_text_of_paragraph (paragraph : String) : String :=
  if paragraph.length > 100 then (pySplitOnChar '.' paragraph).headD paragraph ++ "."
  else paragraph

/-- The 80-character cap: text longer than 80 characters becomes its first
77 characters plus `"..."`. -/
def cap_event_text (t : String) : String :=
  if t.length > 80 then String.mk (t.data.take 77) ++ "..." else t

/-- Full event text of a paragraph-derived timeline entry. -/
def simplified_event_text (paragraph : String) : String :=
  cap_event_text (event_text_of_paragraph paragraph)

/-- The paragraph-processing loop of `generate_story_timeline`: enumerate the
selected paragraph indices, skipping the pair (0, 0) (already covered by the
introduction) and section-header paragraphs starting with '#'. -/
def para_events (paragraphs months : List String) (sig : List Nat) : List Event :=
  sig.enum.filterMap (fun p =>
    if p.1 = 0 ∧ p.2 = 0 then none
    else if prefixOfL "#".data (pyStrip (paragraphs.getD p.2 "")).data then none
    else some (Event.mk (para_date_str months p.1) (simplified_event_text (paragraphs.getD p.2 ""))))

/-- The event list built by `generate_story_timeline` before rendering:
an introduction event, the paragraph-derived events, and a conclusion event
(`random.choice` over the four closing sentences modelled by `conclO`).
An empty character list raises IndexError at `characters[0]`. -/
def generate_story_timeline_events (story : String) (characters : List SChar)
    (settings : Settings) (conclO : Nat) : Except String (List Event) :=
  let paragraphs := split_paragraphs story
  let season := settings.season?.getD "spring"
  let location := settings.location?.getD "unknown location"
  let story_length := paragraphs.length
  let num_events := if story_length ≤ 10 then 3 else if story_length ≤ 20 then 5 else 7
  let sig := if paragraphs.length ≤ num_events then List.range paragraphs.length
             else (pyRangeStep paragraphs.length (paragraphs.length / num_events)).take num_events
  let months := season_months_get season
  match characters with
  | [] => Except.error "IndexError: list index out of range"
  | c0 :: _ =>
    let protagonist := simplified_protagonist c0 characters
    let introduction := protagonist.name ++ " begins the journey into " ++
      settings.location?.getD "the story setting" ++ "."
    let intro : Event := Event.mk (months.getD 0 "" ++ " 1") introduction
    let concl : Event := Event.mk (months.getD 2 "" ++ " 28")
      ((conclusion_options location (settings.time_period?.getD "this time")).getD (conclO % 4) "")
    Except.ok (intro :: para_events paragraphs months sig ++ [concl])

/-! ## Claim-side reference definitions (phrased after the specification's
words, for comparison against the source embeddings) -/

/-- The distribution procedure exactly as the specification words it: the
interval `[start_idx, n)` (not `[0, n)`) is divided into `num_events`
equal-width sections, one candidate picked per section. -/
def distribute_events_spec_claim (start_idx : Nat) (candidate_indices : List Nat)
    (num_events n : Nat) (choiceO : List Nat → Nat) : Except String (List Nat) :=
  exMapM (fun i =>
    let section_start := start_idx + i * (n - start_idx) / num_events
    let section_end := start_idx + (i + 1) * (n - start_idx) / num_events
    let section_candidates := candidate_indices.filter (fun idx => decide (section_start ≤ idx ∧ idx < section_end))
    if section_candidates.isEmpty then
      match candidate_indices.map (fun idx => (dist2 idx section_start section_end, idx)) with
      | [] => Except.error "IndexError: list index out of range"
      | d :: ds => Except.ok (lexMinD ds d).2
    else pyChoice choiceO section_candidates) (List.range num_events)

/-- Does position `j` of `l` end a first sentence as the claim describes it:
`.`, `!` or `?` at `j ≥ 1`, followed by whitespace or the end of the text? -/
def sentenceEndAt (l : List Char) (j : Nat) : Bool :=
  decide (1 ≤ j) && isSentencePunct (l.getD j ' ') &&
    (decide (j + 1 = l.length) || isPySpace (l.getD (j + 1) 'x'))

/-- First sentence per the claim's words: the text up to the first `.`, `!`
or `?` followed by whitespace or end, when such a position exists. -/
def first_sentence_claim (l : List Char) : Option (List Char) :=
  ((List.range l.length).find? (sentenceEndAt l)).map (fun j => l.take (j + 1))

/-- The function `_extract_event_from_paragraph` re-stated in the claim's words: a
paragraph of at most 200 characters is returned unmodified; otherwise its
first sentence when that exists and is shorter than 150 characters;
otherwise its first 150 characters with an ellipsis appended. -/
def extract_event_claim (paragraph : String) : String :=
  if paragraph.length ≤ 200 then paragraph
  else
    match first_sentence_claim paragraph.data with
    | some fs => if fs.length < 150 then String.mk fs
                 else String.mk (paragraph.data.take 150) ++ "..."
    | none => String.mk (paragraph.data.take 150) ++ "..."

/-! ## Claim C1 — `generate_timeline` on the four recognized seasons -/

/-- C1: the claim that `generate_timeline` returns a framed table and never
raises for every recognized season is contradicted by the code at season
'winter': the winter month window December→February lies within one calendar
year, so `date_range = (end_date - start_date).days` is negative and the
additional-event loop's `random.randint(0, date_range)` raises ValueError.
This theorem evaluates the embedded code at the failing input. -/
theorem c1_winter_raises :
    generate_timeline "A" [] "winter" 1805 0 (fun _ => 0) (fun _ => 0) (fun _ => 0) =
      Except.error "ValueError: empty range for randrange()" := by rfl

/-! ## Claim C5 — stories with zero non-blank paragraphs -/

/-- C5: the claim that a story with zero usable paragraphs still yields a
table is contradicted by the code: with no paragraphs,
`start_idx = min(4, len(paragraphs) - 1) = -1` and the significance scan's
first subscript `paragraphs[-1]` raises IndexError.  This theorem evaluates
the embedded code at the failing input (the empty story). -/
theorem c5_empty_story_raises :
    generate_timeline "" [] "spring" 1805 0 (fun _ => 0) (fun _ => 0) (fun _ => 0) =
      Except.error "IndexError: list index out of range" := by rfl

/-! ## Claim C4 — unrecognized season names -/

/-- C4 counterexample: `TimelineGenerator.generate_timeline` does fail on a
season that is not one of the four exact lowercase names —
`self.seasons[season]` raises KeyError even for the capitalized 'Spring',
so there is no case-insensitive fallback in this class. -/
theorem c4_counterexample :
    generate_timeline "A" [] "Spring" 1805 0 (fun _ => 0) (fun _ => 0) (fun _ => 0) =
      Except.error "KeyError: season" := by rfl

/-- C4 (amended): the silent case-insensitive fallback exists in the
simplified storyteller's `generate_story_timeline`: any season whose
lowercase form is not one of the four names gets the default
January/February/March window instead of an error. -/
theorem c4_unknown_season_fallback (season : String)
    (h : pyLower season ∉ (["spring", "summer", "autumn", "winter"] : List String)) :
    season_months_get season = ["January", "February", "March"] := by
  have h1 : pyLower season ≠ "spring" := fun e => h (by simp [e])
  have h2 : pyLower season ≠ "summer" := fun e => h (by simp [e])
  have h3 : pyLower season ≠ "autumn" := fun e => h (by simp [e])
  have h4 : pyLower season ≠ "winter" := fun e => h (by simp [e])
  simp only [season_months_get, if_neg h1, if_neg h2, if_neg h3, if_neg h4]

/-- Witness for C4's amended theorem at the concrete season 'Monsoon'. -/
theorem c4_unknown_season_fallback_witness :
    pyLower "Monsoon" ∉ (["spring", "summer", "autumn", "winter"] : List String) ∧
      season_months_get "Monsoon" = ["January", "February", "March"] :=
  ⟨by decide, c4_unknown_season_fallback "Monsoon" (by decide)⟩

/-! ## Claim C6 — event-text truncation bounds -/

/-- C6 (amended): in the simplified storyteller every paragraph-derived
timeline entry's text is capped: text over 80 characters becomes its first
77 characters plus `"..."`, so the formatted length is `min(original, 80)`
and in particular never exceeds 80. -/
theorem c6_event_text_cap :
    (∀ t : String, (cap_event_text t).length = min t.length 80) ∧
      ∀ paragraph : String, (simplified_event_text paragraph).length ≤ 80 := by
  have hcap : ∀ t : String, (cap_event_text t).length = min t.length 80 := by
    intro t
    have hdata : t.length = t.data.length := rfl
    rw [cap_event_text]
    by_cases h : t.length > 80
    · rw [if_pos h]
      have h3 : ("..." : String).length = 3 := rfl
      rw [String.length_append, String.length_mk, List.length_take, h3]
      omega
    · rw [if_neg h]
      omega
  exact ⟨hcap, fun p => by rw [simplified_event_text, hcap]; omega⟩

/-- A 100-character event text. -/
def long_event_text : String := String.mk (List.replicate 100 'a')

/-- C6 counterexample: `TimelineGenerator.format_timeline_ascii` performs no
truncation at rendering time — a 100-character event text appears verbatim
in the rendered row, so rendered rows are not limited to 80 characters of
event text. -/
theorem c6_counterexample :
    format_timeline_ascii [Event.mk "June 1st, 1812" long_event_text] =
      "  June 1st, 1812 ┬─ " ++ long_event_text ∧ 80 < long_event_text.length :=
  ⟨by rfl, by decide⟩

/-! ## Claim C3 — the paragraph-derived date formulas -/

/-- C3: each paragraph-derived timeline entry of the simplified storyteller
at enumeration index `idx` is dated `months[idx % 3]` (the `min (idx % 3) 2`
in the source is the identity since `idx % 3 < 3`) with day
`(idx * 7 + 5) % 28 + 1`, and that day always lies in `[1, 28]`; and every
paragraph-derived event in the built list carries such a date. -/
theorem c3_para_date_formula :
    (∀ (months : List String) (idx : Nat),
        para_date_str months idx =
          months.getD (idx % 3) "" ++ " " ++ pyStr ((idx * 7 + 5) % 28 + 1) ∧
          1 ≤ (idx * 7 + 5) % 28 + 1 ∧ (idx * 7 + 5) % 28 + 1 ≤ 28) ∧
      ∀ (paragraphs months : List String) (sig : List Nat) (e : Event),
        e ∈ para_events paragraphs months sig → ∃ idx, e.date = para_date_str months idx := by
  constructor
  · intro months idx
    refine ⟨?_, by omega, ?_⟩
    · have hmin : min (idx % 3) 2 = idx % 3 := by omega
      rw [para_date_str, hmin]
    · have := Nat.mod_lt (idx * 7 + 5) (show 0 < 28 by omega)
      omega
  · intro paragraphs months sig e he
    rw [para_events] at he
    rcases List.mem_filterMap.mp he with ⟨p, _, hp⟩
    by_cases h1 : p.1 = 0 ∧ p.2 = 0
    · rw [if_pos h1] at hp
      exact absurd hp (by simp)
    · rw [if_neg h1] at hp
      by_cases h2 : prefixOfL "#".data (pyStrip (paragraphs.getD p.2 "")).data = true
      · rw [if_pos h2] at hp
        exact absurd hp (by simp)
      · rw [if_neg h2] at hp
        refine ⟨p.1, ?_⟩
        have he2 := Option.some.inj hp
        rw [← he2]

/-- Witness for C3's membership clause at a concrete story. -/
theorem c3_para_date_formula_witness :
    ∃ idx, (Event.mk "March 6" "x").date = para_date_str ["March", "April", "May"] idx :=
  c3_para_date_formula.2 ["#h", "x"] ["March", "April", "May"] [1]
    (Event.mk "March 6" "x") (by decide)

/-! ## Claim C2 — introduction and conclusion bookend events -/

/-- C2 counterexample: at a concrete input the simplified storyteller's
event list is exactly introduction, paragraph events, conclusion — the
conclusion is dated "May 28", which cannot be of the claimed form
"{third_month} 28, {regency_year}" since it contains no comma at all (the
generator appends no year to any date); there are no separately generated
additional events in the list, and the introduction's protagonist is the
role-'Protagonist' character, not characters[0]. -/
theorem c2_counterexample :
    generate_story_timeline_events "Alpha\nBeta\nGamma"
        [SChar.mk "Anne" "Friend", SChar.mk "Darcy" "Protagonist"]
        (Settings.mk none none none) 0 =
      Except.ok [Event.mk "March 1" "Darcy begins the journey into the story setting.",
        Event.mk "April 13" "Beta", Event.mk "May 20" "Gamma",
        Event.mk "May 28" "The events in unknown location reach their conclusion."] ∧
      ("May 28" : String).data.contains ',' = false :=
  ⟨by rfl, by decide⟩

/-- The last element of `a :: (l ++ [b])` is `b`. -/
theorem getLast?_cons_concat {α : Type} (a b : α) (l : List α) :
    (a :: (l ++ [b])).getLast? = some b :=
  show ((a :: l) ++ [b]).getLast? = some b from List.getLast?_concat (a :: l)

/-- Membership of a default-valued index access in range. -/
theorem getD_mem_of_lt {α : Type} : ∀ (l : List α) (n : Nat) (d : α),
    n < l.length → l.getD n d ∈ l
  | a :: t, 0, d, _ => by simp [List.getD]
  | a :: t, n + 1, d, h => by
    have ht := getD_mem_of_lt t n d (by simpa using h)
    simpa [List.getD] using Or.inr ht

/-- C2 (amended): for every story, settings and nonempty character list the
simplified storyteller's event list begins with the introduction event
(date `"{first_month} 1"`, text built from the first role-'Protagonist'
character, else characters[0]) and ends with the conclusion event (date
`"{third_month} 28"` — no year is appended, this generator has no year —
text one of the four templated closing sentences); besides these bookends
only paragraph-derived events appear. -/
theorem c2_bookend_events (story : String) (characters : List SChar)
    (settings : Settings) (k : Nat) (c0 : SChar) (rest : List SChar)
    (hchars : characters = c0 :: rest) :
    ∃ evs, generate_story_timeline_events story characters settings k = Except.ok evs ∧
      evs.head? = some (Event.mk
        ((season_months_get (settings.season?.getD "spring")).getD 0 "" ++ " 1")
        ((simplified_protagonist c0 characters).name ++ " begins the journey into " ++
          settings.location?.getD "the story setting" ++ ".")) ∧
      ∃ e, evs.getLast? = some e ∧
        e.date = (season_months_get (settings.season?.getD "spring")).getD 2 "" ++ " 28" ∧
        e.event ∈ conclusion_options (settings.location?.getD "unknown location")
          (settings.time_period?.getD "this time") := by
  subst hchars
  refine ⟨_, rfl, rfl, ?_⟩
  refine ⟨Event.mk ((season_months_get (settings.season?.getD "spring")).getD 2 "" ++ " 28")
      ((conclusion_options (settings.location?.getD "unknown location")
        (settings.time_period?.getD "this time")).getD (k % 4) ""), ?_, rfl, ?_⟩
  · exact getLast?_cons_concat _ _ _
  · exact getD_mem_of_lt _ _ _ (by simp [conclusion_options]; omega)

/-- Witness for C2's amended theorem at a concrete input. -/
theorem c2_bookend_events_witness :
    ∃ evs, generate_story_timeline_events "Alpha\nBeta"
        [SChar.mk "Elizabeth" "Protagonist"]
        (Settings.mk (some "Bath") (some "summer") (some "the Regency")) 1 = Except.ok evs ∧
      evs.head? = some (Event.mk
        ((season_months_get ((Settings.mk (some "Bath") (some "summer") (some "the Regency")).season?.getD "spring")).getD 0 "" ++ " 1")
        ((simplified_protagonist (SChar.mk "Elizabeth" "Protagonist") [SChar.mk "Elizabeth" "Protagonist"]).name ++
          " begins the journey into " ++
          (Settings.mk (some "Bath") (some "summer") (some "the Regency")).location?.getD "the story setting" ++ ".")) ∧
      ∃ e, evs.getLast? = some e ∧
        e.date = (season_months_get ((Settings.mk (some "Bath") (some "summer") (some "the Regency")).season?.getD "spring")).getD 2 "" ++ " 28" ∧
        e.event ∈ conclusion_options
          ((Settings.mk (some "Bath") (some "summer") (some "the Regency")).location?.getD "unknown location")
          ((Settings.mk (some "Bath") (some "summer") (some "the Regency")).time_period?.getD "this time") :=
  c2_bookend_events "Alpha\nBeta" [SChar.mk "Elizabeth" "Protagonist"]
    (Settings.mk (some "Bath") (some "summer") (some "the Regency")) 1
    (SChar.mk "Elizabeth" "Protagonist") [] rfl

/-! ## Claim C7 — section-wise distribution of events -/

/-- C7 counterexample: `_distribute_events` divides `[0, story_length)`,
not `[start_idx, n)`.  With candidates [4, 8, 12, 16, 18, 19], five events,
twenty paragraphs (so start_idx = 4) and the choice oracle always taking
the first element, the source selects [4, 4, 8, 12, 16] — its first section
[0, 4) contains no candidate, so 4 is picked twice — while the procedure
worded in the claim over `[4, 20)` selects [4, 8, 12, 16, 16]. -/
theorem c7_counterexample :
    distribute_events [4, 8, 12, 16, 18, 19] 5 20 (fun _ => 0) = Except.ok [4, 4, 8, 12, 16] ∧
      distribute_events_spec_claim 4 [4, 8, 12, 16, 18, 19] 5 20 (fun _ => 0) =
        Except.ok [4, 8, 12, 16, 16] ∧
      ([4, 4, 8, 12, 16] : List Nat) ≠ [4, 8, 12, 16, 16] :=
  ⟨by rfl, by rfl, by decide⟩

/-- What `_distribute_events` guarantees for the pick `x` of section `i`
(sections partitioning `[0, story_length)`): `x` is always a candidate; it
lies in the section when the section has candidates; otherwise it is a
candidate at minimal distance from the section's midpoint. -/
def SectionPickOk (candidate_indices : List Nat) (num_events story_length i x : Nat) : Prop :=
  x ∈ candidate_indices ∧
    (candidate_indices.filter (fun idx =>
        decide (i * story_length / num_events ≤ idx ∧
          idx < (i + 1) * story_length / num_events)) ≠ [] →
      x ∈ candidate_indices.filter (fun idx =>
        decide (i * story_length / num_events ≤ idx ∧
          idx < (i + 1) * story_length / num_events))) ∧
    (candidate_indices.filter (fun idx =>
        decide (i * story_length / num_events ≤ idx ∧
          idx < (i + 1) * story_length / num_events)) = [] →
      ∀ y ∈ candidate_indices,
        dist2 x (i * story_length / num_events) ((i + 1) * story_length / num_events) ≤
          dist2 y (i * story_length / num_events) ((i + 1) * story_length / num_events))

/-- The map `exMapM` succeeds and returns a pointwise-related list when every
element maps to a success. -/
theorem exMapM_ok_props {α β : Type} (f : α → Except String β) (P : α → β → Prop) :
    ∀ l : List α, (∀ a ∈ l, ∃ b, f a = Except.ok b ∧ P a b) →
      ∃ r, exMapM f l = Except.ok r ∧ r.length = l.length ∧
        ∀ i x, r.get? i = some x → ∃ a, l.get? i = some a ∧ P a x := by
  intro l
  induction l with
  | nil =>
    intro _
    refine ⟨[], rfl, rfl, ?_⟩
    intro i x h
    cases i <;> exact absurd h (by simp)
  | cons a t ih =>
    intro hf
    obtain ⟨b, hb, hPb⟩ := hf a (List.mem_cons_self a t)
    obtain ⟨r, hr, hlen, hprops⟩ := ih (fun x hx => hf x (List.mem_cons_of_mem a hx))
    refine ⟨b :: r, ?_, by simpa using hlen, ?_⟩
    · rw [exMapM, hb, hr]; rfl
    · intro i x h
      cases i with
      | zero =>
        refine ⟨a, rfl, ?_⟩
        have hx : b = x := by simpa using h
        rw [← hx]; exact hPb
      | succ j => exact hprops j x h

/-- The running lexicographic minimum is the seed or a list element. -/
theorem lexMinD_mem (l : List (Nat × Nat)) : ∀ b : Nat × Nat,
    lexMinD l b = b ∨ lexMinD l b ∈ l := by
  induction l with
  | nil => intro b; left; rfl
  | cons y t ih =>
    intro b
    have hstep : lexMinD (y :: t) b = lexMinD t (if lexLt y b then y else b) := rfl
    rw [hstep]
    rcases ih (if lexLt y b then y else b) with h | h
    · rw [h]
      by_cases hc : lexLt y b
      · rw [if_pos hc]; right; exact List.mem_cons_self y t
      · rw [if_neg hc]; left; rfl
    · right; exact List.mem_cons_of_mem y h

/-- The running lexicographic minimum has the smallest first component among
the seed and the list. -/
theorem lexMinD_min (l : List (Nat × Nat)) : ∀ b : Nat × Nat,
    (lexMinD l b).1 ≤ b.1 ∧ ∀ y ∈ l, (lexMinD l b).1 ≤ y.1 := by
  induction l with
  | nil => intro b; exact ⟨Nat.le_refl _, by intro y hy; cases hy⟩
  | cons y t ih =>
    intro b
    have hstep : lexMinD (y :: t) b = lexMinD t (if lexLt y b then y else b) := rfl
    obtain ⟨ih1, ih2⟩ := ih (if lexLt y b then y else b)
    have hyb : (if lexLt y b then y else b).1 ≤ b.1 ∧ (if lexLt y b then y else b).1 ≤ y.1 := by
      by_cases hc : lexLt y b = true
      · rw [if_pos hc]
        have : y.1 < b.1 ∨ (y.1 = b.1 ∧ y.2 < b.2) := by simpa [lexLt] using hc
        omega
      · rw [if_neg hc]
        have : ¬(y.1 < b.1 ∨ (y.1 = b.1 ∧ y.2 < b.2)) := by simpa [lexLt] using hc
        omega
    rw [hstep]
    refine ⟨le_trans ih1 hyb.1, ?_⟩
    intro z hz
    rcases List.mem_cons.mp hz with rfl | hz
    · exact le_trans ih1 hyb.2
    · exact ih2 z hz

/-- Each section pick of `_distribute_events` succeeds and satisfies
`SectionPickOk` whenever the candidate list is nonempty. -/
theorem distribute_section_pick_ok (cand : List Nat) (k n : Nat)
    (oracle : List Nat → Nat) (i : Nat) (hcand : cand ≠ []) :
    ∃ b, distribute_section_pick cand k n oracle i = Except.ok b ∧
      SectionPickOk cand k n i b := by
  rw [distribute_section_pick]
  by_cases hsc : (cand.filter (fun idx =>
      decide (i * n / k ≤ idx ∧ idx < (i + 1) * n / k))).isEmpty
  · rw [if_pos hsc]
    cases hmap : cand.map (fun idx =>
        (dist2 idx (i * n / k) ((i + 1) * n / k), idx)) with
    | nil =>
      exfalso
      have := congrArg List.length hmap
      simp only [List.length_map, List.length_nil] at this
      exact hcand (List.length_eq_zero.mp this)
    | cons d ds =>
      have hmem : lexMinD ds d ∈ d :: ds := by
        rcases lexMinD_mem ds d with hh | hh
        · rw [hh]; exact List.mem_cons_self d ds
        · exact List.mem_cons_of_mem d hh
      rw [← hmap] at hmem
      obtain ⟨idx, hidxmem, hidx2⟩ := List.mem_map.mp hmem
      have h1 : (lexMinD ds d).1 = dist2 idx (i * n / k) ((i + 1) * n / k) := by rw [← hidx2]
      have h2 : (lexMinD ds d).2 = idx := by rw [← hidx2]
      refine ⟨(lexMinD ds d).2, rfl, ?_, ?_, ?_⟩
      · rw [h2]; exact hidxmem
      · intro hne
        exact absurd (List.isEmpty_iff.mp hsc) hne
      · intro _ y hy
        have hymem : (dist2 y (i * n / k) ((i + 1) * n / k), y) ∈ d :: ds := by
          rw [← hmap]; exact List.mem_map.mpr ⟨y, hy, rfl⟩
        obtain ⟨hd1, hd2⟩ := lexMinD_min ds d
        rcases List.mem_cons.mp hymem with he | he
        · have hfst : dist2 y (i * n / k) ((i + 1) * n / k) = d.1 := by rw [← he]
          rw [h2, ← h1, hfst]; exact hd1
        · have hle := hd2 _ he
          rw [h2, ← h1]; exact hle
  · rw [if_neg hsc]
    have hne : cand.filter (fun idx =>
        decide (i * n / k ≤ idx ∧ idx < (i + 1) * n / k)) ≠ [] := by
      intro e
      rw [e] at hsc
      simp at hsc
    cases hfc : cand.filter (fun idx =>
        decide (i * n / k ≤ idx ∧ idx < (i + 1) * n / k)) with
    | nil => exact absurd hfc hne
    | cons f fs =>
      refine ⟨(f :: fs).getD (oracle (f :: fs) % (f :: fs).length) 0, rfl, ?_, ?_, ?_⟩
      · have hm : (f :: fs).getD (oracle (f :: fs) % (f :: fs).length) 0 ∈ f :: fs :=
          getD_mem_of_lt _ _ _ (Nat.mod_lt _ (by simp))
        have hm2 : (f :: fs).getD (oracle (f :: fs) % (f :: fs).length) 0 ∈
            cand.filter (fun idx => decide (i * n / k ≤ idx ∧ idx < (i + 1) * n / k)) := by
          rw [hfc]; exact hm
        exact (List.mem_filter.mp hm2).1
      · intro _
        rw [hfc]
        exact getD_mem_of_lt _ _ _ (Nat.mod_lt _ (by simp))
      · intro habs
        rw [habs] at hfc
        exact absurd hfc.symm (by simp)

/-- C7 (amended): when there are at most `num_events` candidates,
`_distribute_events` returns them unchanged; when there are more, it returns
exactly `num_events` picks and the pick for each section of
`[0, story_length)` (not of `[start_idx, n)` as the claim puts it) is a
candidate of that section when one exists, otherwise a candidate at minimal
distance from the section midpoint. -/
theorem c7_distribute_props (cand : List Nat) (k n : Nat) (oracle : List Nat → Nat) :
    (cand.length ≤ k → distribute_events cand k n oracle = Except.ok cand) ∧
      (k < cand.length → ∃ sel, distribute_events cand k n oracle = Except.ok sel ∧
        sel.length = k ∧ ∀ i x, sel.get? i = some x → SectionPickOk cand k n i x) := by
  constructor
  · intro h
    rw [distribute_events, if_pos h]
  · intro h
    rw [distribute_events, if_neg (by omega)]
    have hcand : cand ≠ [] := by
      intro e; rw [e] at h; exact absurd h (by simp)
    obtain ⟨r, hr, hlen, hprops⟩ := exMapM_ok_props
      (distribute_section_pick cand k n oracle)
      (fun i x => SectionPickOk cand k n i x) (List.range k)
      (fun i _ => distribute_section_pick_ok cand k n oracle i hcand)
    refine ⟨r, hr, by simpa using hlen, ?_⟩
    intro i x hx
    obtain ⟨a, ha, hP⟩ := hprops i x hx
    have hik : i < k := by
      by_contra hik
      rw [List.get?_eq_none.mpr (by simpa using Nat.le_of_not_lt hik)] at ha
      cases ha
    have hai : a = i := by
      rw [List.get?_range hik] at ha
      exact (Option.some.inj ha).symm
    rw [← hai]
    exact hP

/-- Witness for C7's amended theorem at the counterexample's input. -/
theorem c7_distribute_props_witness :
    ∃ sel, distribute_events [4, 8, 12, 16, 18, 19] 5 20 (fun _ => 0) = Except.ok sel ∧
      sel.length = 5 ∧ ∀ i x, sel.get? i = some x →
        SectionPickOk [4, 8, 12, 16, 18, 19] 5 20 i x :=
  (c7_distribute_props [4, 8, 12, 16, 18, 19] 5 20 (fun _ => 0)).2 (by decide)

/-! ## Claim C9 — `_extract_event_from_paragraph` -/

/-- The element sitting right after a prefix of length `acc.length`. -/
theorem getD_at_append : ∀ (acc : List Char) (c : Char) (r : List Char) (d : Char),
    (acc ++ c :: r).getD acc.length d = c
  | [], c, r, d => rfl
  | a :: t, c, r, d => getD_at_append t c r d

/-- Taking one element past a prefix keeps the prefix plus that element. -/
theorem take_at_append : ∀ (acc : List Char) (c : Char) (r : List Char),
    (acc ++ c :: r).take (acc.length + 1) = acc ++ [c]
  | [], c, r => by simp
  | a :: t, c, r => by
    simp only [List.cons_append, List.length_cons, List.take_succ_cons, List.cons.injEq,
      true_and]
    exact take_at_append t c r

/-- The scanner of `_extract_event_from_paragraph` computes exactly the
claim's "first position `j ≥ 1` with sentence punctuation followed by
whitespace or the end". -/
theorem scanSentence_eq_find : ∀ (rest acc : List Char),
    scanSentence acc rest =
      ((List.range' acc.length rest.length).find? (sentenceEndAt (acc ++ rest))).map
        (fun i => (acc ++ rest).take (i + 1)) := by
  intro rest
  induction rest with
  | nil => intro acc; rfl
  | cons c r ih =>
    intro acc
    have hrange : List.range' acc.length (c :: r).length =
        acc.length :: List.range' (acc.length + 1) r.length := by
      simp [List.range'_succ]
    rw [hrange]
    have hcond : sentenceEndAt (acc ++ c :: r) acc.length =
        (isSentencePunct c && !acc.isEmpty && nextSpaceOrEnd r) := by
      rw [sentenceEndAt, getD_at_append]
      have h1 : decide (1 ≤ acc.length) = !acc.isEmpty := by
        cases acc <;> simp
      rw [h1]
      cases r with
      | nil =>
        have h2 : decide (acc.length + 1 = (acc ++ [c]).length) = true := by simp
        rw [h2]
        simp [nextSpaceOrEnd, Bool.and_comm]
      | cons d r2 =>
        have h2 : decide (acc.length + 1 = (acc ++ c :: d :: r2).length) = false := by
          simp
        have h3 : (acc ++ c :: d :: r2).getD (acc.length + 1) 'x' = d := by
          have := getD_at_append (acc ++ [c]) d r2 'x'
          simpa using this
        rw [h2, h3]
        simp [nextSpaceOrEnd, Bool.and_comm]
    have hunfold : scanSentence acc (c :: r) =
        if isSentencePunct c && !acc.isEmpty && nextSpaceOrEnd r then some (acc ++ [c])
        else scanSentence (acc ++ [c]) r := rfl
    rw [hunfold]
    by_cases hc : (isSentencePunct c && !acc.isEmpty && nextSpaceOrEnd r) = true
    · rw [if_pos hc, List.find?_cons_of_pos _ (by rw [hcond]; exact hc)]
      rw [Option.map_some']
      rw [take_at_append]
    · rw [if_neg hc, List.find?_cons_of_neg _ (by rw [hcond]; exact hc)]
      have := ih (acc ++ [c])
      simpa [List.append_assoc] using this

/-- C9: `_extract_event_from_paragraph` behaves exactly as the claim words
it — a paragraph of at most 200 characters is returned unmodified; a longer
one becomes its first sentence (text up to the first '.', '!' or '?'
followed by whitespace or the end) when that sentence exists and is shorter
than 150 characters, else its first 150 characters plus "...". -/
theorem c9_extract_event_eq_claim :
    ∀ paragraph : String, extract_event_from_paragraph paragraph = extract_event_claim paragraph := by
  intro p
  rw [extract_event_from_paragraph, extract_event_claim]
  by_cases h : p.length ≤ 200
  · rw [if_neg (by omega), if_pos h]
  · rw [if_pos (by omega), if_neg h]
    have hscan : scanSentence [] p.data =
        (first_sentence_claim p.data) := by
      have := scanSentence_eq_find p.data []
      simpa [first_sentence_claim, List.range_eq_range'] using this
    rw [hscan]

/-! ## Claim C10 — formatting/parsing round trip -/

/-- Evaluation of `Char.ofNat` on an ASCII digit code point. -/
theorem toNat_ofNat_digit (k : Nat) (hk : k < 10) : (Char.ofNat (48 + k)).toNat = 48 + k := by
  interval_cases k <;> decide

/-- Characters built from digit code points are digits. -/
theorem isDigitChar_ofNat_digit (k : Nat) (hk : k < 10) :
    isDigitChar (Char.ofNat (48 + k)) = true := by
  interval_cases k <;> decide

/-- The digit rendering does not depend on the fuel once it is sufficient. -/
theorem natDigitsAux_fuel : ∀ f1 f2 n : Nat, n ≤ f1 → n ≤ f2 →
    natDigitsAux f1 n = natDigitsAux f2 n := by
  intro f1
  induction f1 with
  | zero =>
    intro f2 n h1 _
    have hn : n = 0 := by omega
    subst hn
    cases f2 with
    | zero => rfl
    | succ g2 => rfl
  | succ g1 ih =>
    intro f2 n h1 h2
    cases f2 with
    | zero =>
      have hn : n = 0 := by omega
      subst hn
      rfl
    | succ g2 =>
      show (if n < 10 then [Char.ofNat (48 + n)]
            else natDigitsAux g1 (n / 10) ++ [Char.ofNat (48 + n % 10)]) =
          (if n < 10 then [Char.ofNat (48 + n)]
            else natDigitsAux g2 (n / 10) ++ [Char.ofNat (48 + n % 10)])
      by_cases hn : n < 10
      · rw [if_pos hn, if_pos hn]
      · rw [if_neg hn, if_neg hn, ih g2 (n / 10) (by omega) (by omega)]

/-- Recursive unfolding of `natDigits`. -/
theorem natDigits_unfold (n : Nat) :
    natDigits n = if n < 10 then [Char.ofNat (48 + n)]
      else natDigits (n / 10) ++ [Char.ofNat (48 + n % 10)] := by
  by_cases hn : n < 10
  · rw [if_pos hn]
    cases n with
    | zero => rfl
    | succ k =>
      show (if k + 1 < 10 then [Char.ofNat (48 + (k + 1))]
          else natDigitsAux k ((k + 1) / 10) ++ [Char.ofNat (48 + (k + 1) % 10)]) = _
      rw [if_pos hn]
  · rw [if_neg hn]
    cases n with
    | zero => omega
    | succ k =>
      show (if k + 1 < 10 then [Char.ofNat (48 + (k + 1))]
          else natDigitsAux k ((k + 1) / 10) ++ [Char.ofNat (48 + (k + 1) % 10)]) = _
      rw [if_neg hn]
      rw [natDigitsAux_fuel k ((k + 1) / 10) ((k + 1) / 10) (by omega) (Nat.le_refl _)]
      rfl

/-- Every character of a decimal rendering is a digit. -/
theorem natDigits_all_digit (n : Nat) : ∀ c ∈ natDigits n, isDigitChar c = true := by
  induction n using Nat.strong_induction_on with
  | _ n ih =>
    rw [natDigits_unfold]
    by_cases hn : n < 10
    · rw [if_pos hn]
      intro c hc
      have : c = Char.ofNat (48 + n) := by simpa using hc
      rw [this]
      exact isDigitChar_ofNat_digit n hn
    · rw [if_neg hn]
      intro c hc
      rcases List.mem_append.mp hc with h | h
      · exact ih (n / 10) (by omega) c h
      · have : c = Char.ofNat (48 + n % 10) := by simpa using h
        rw [this]
        exact isDigitChar_ofNat_digit (n % 10) (by omega)

/-- Decimal renderings are never empty. -/
theorem natDigits_ne_nil (n : Nat) : natDigits n ≠ [] := by
  rw [natDigits_unfold]
  by_cases hn : n < 10
  · rw [if_pos hn]; simp
  · rw [if_neg hn]; simp

/-- Reading one more digit multiplies the value by ten. -/
theorem digitsVal_append_digit (l : List Char) (c : Char) :
    digitsVal (l ++ [c]) = 10 * digitsVal l + (c.toNat - 48) := by
  rw [digitsVal, digitsVal, List.foldl_append]
  simp [Nat.mul_comm]

/-- Reading back a decimal rendering: `int(str(n)) = n`. -/
theorem digitsVal_natDigits (n : Nat) : digitsVal (natDigits n) = n := by
  induction n using Nat.strong_induction_on with
  | _ n ih =>
    rw [natDigits_unfold]
    by_cases hn : n < 10
    · rw [if_pos hn]
      show digitsVal [Char.ofNat (48 + n)] = n
      rw [digitsVal]
      simp [toNat_ofNat_digit n hn]
    · rw [if_neg hn]
      rw [digitsVal_append_digit, ih (n / 10) (by omega),
        toNat_ofNat_digit (n % 10) (by omega)]
      omega

/-- Length of the decimal rendering of a one-digit number. -/
theorem natDigits_length_one (n : Nat) (h : n < 10) : (natDigits n).length = 1 := by
  rw [natDigits_unfold, if_pos h]
  rfl

/-- Length step of the decimal rendering. -/
theorem natDigits_length_step (n : Nat) (h : 10 ≤ n) :
    (natDigits n).length = (natDigits (n / 10)).length + 1 := by
  rw [natDigits_unfold, if_neg (by omega)]
  simp

/-- A four-digit year renders as exactly four characters. -/
theorem natDigits_length_four (y : Nat) (h1 : 1000 ≤ y) (h2 : y ≤ 9999) :
    (natDigits y).length = 4 := by
  rw [natDigits_length_step y (by omega)]
  rw [natDigits_length_step (y / 10) (by omega)]
  rw [natDigits_length_step (y / 10 / 10) (by omega)]
  rw [natDigits_length_one (y / 10 / 10 / 10) (by omega)]

/-- Any list of length four consists of four explicit elements. -/
theorem list_eq_four {α : Type} (l : List α) (h : l.length = 4) :
    ∃ a b c d, l = [a, b, c, d] := by
  match l, h with
  | [a, b, c, d], _ => exact ⟨a, b, c, d, rfl⟩

/-- A greedy character-class run stops exactly at the first character
outside the class. -/
theorem takeWhile_split (p : Char → Bool) : ∀ (w : List Char) (c : Char) (r : List Char),
    (∀ x ∈ w, p x = true) → p c = false →
    (w ++ c :: r).takeWhile p = w ∧ (w ++ c :: r).dropWhile p = c :: r := by
  intro w
  induction w with
  | nil =>
    intro c r _ hc
    constructor
    · show (c :: r).takeWhile p = []
      simp [List.takeWhile_cons, hc]
    · show (c :: r).dropWhile p = c :: r
      simp [List.dropWhile_cons, hc]
  | cons a t ih =>
    intro c r hw hc
    have ha : p a = true := hw a (List.mem_cons_self a t)
    obtain ⟨ih1, ih2⟩ := ih c r (fun x hx => hw x (List.mem_cons_of_mem a hx)) hc
    constructor
    · show ((a :: t) ++ c :: r).takeWhile p = a :: t
      simp [List.takeWhile_cons, ha, ih1]
    · show ((a :: t) ++ c :: r).dropWhile p = c :: r
      simp [List.dropWhile_cons, ha, ih2]

/-- Lowercase letters are not digits. -/
theorem not_digit_of_lower (c : Char) (h : isLowerAZ c = true) : isDigitChar c = false := by
  simp only [isLowerAZ, decide_eq_true_eq] at h
  simp only [isDigitChar, decide_eq_false_iff_not]
  omega

/-- Facts about every month name: nonempty, all word characters, and its
index in `calendar_map`'s value list. -/
theorem monthName_facts (m : Nat) (h1 : 1 ≤ m) (h2 : m ≤ 12) :
    (monthName m).data ≠ [] ∧ (∀ c ∈ (monthName m).data, isWordChar c = true) ∧
      monthIndexOf (monthName m) = some (m - 1) := by
  interval_cases m <;> exact ⟨by decide, by decide, by decide⟩

/-- The suffix `_get_day_suffix` yields is always two lowercase letters. -/
theorem get_day_suffix_shape (d : Nat) :
    ∃ a b, (get_day_suffix d).data = [a, b] ∧ isLowerAZ a = true ∧ isLowerAZ b = true := by
  rw [get_day_suffix]
  split_ifs <;>
    first
      | exact ⟨'t', 'h', rfl, by decide, by decide⟩
      | exact ⟨'s', 't', rfl, by decide, by decide⟩
      | exact ⟨'n', 'd', rfl, by decide, by decide⟩
      | exact ⟨'r', 'd', rfl, by decide, by decide⟩

/-- Rebuilding a string from its characters is the identity. -/
theorem string_mk_data (s : String) : String.mk s.data = s := rfl

/-- The date regex matches a well-shaped Regency date string and captures
its month, day and year groups. -/
theorem pyRegexDateMatch_structured (w dd yy : List Char) (sa sb : Char)
    (hw1 : w ≠ []) (hw2 : ∀ c ∈ w, isWordChar c = true)
    (hd1 : dd ≠ []) (hd2 : ∀ c ∈ dd, isDigitChar c = true)
    (hsa : isLowerAZ sa = true) (hsb : isLowerAZ sb = true)
    (hylen : yy.length = 4) (hy : ∀ c ∈ yy, isDigitChar c = true) :
    pyRegexDateMatch (String.mk (w ++ ' ' :: (dd ++ sa :: sb :: ',' :: ' ' :: yy))) =
      some (String.mk w, String.mk dd, String.mk yy) := by
  obtain ⟨hw_take, hw_drop⟩ := takeWhile_split isWordChar w ' '
    (dd ++ sa :: sb :: ',' :: ' ' :: yy) hw2 (by decide)
  obtain ⟨hd_take, hd_drop⟩ := takeWhile_split isDigitChar dd sa
    (sb :: ',' :: ' ' :: yy) hd2 (not_digit_of_lower sa hsa)
  obtain ⟨y1, y2, y3, y4, hy4⟩ := list_eq_four yy hylen
  have hwe : w.isEmpty = false := by
    cases w with
    | nil => exact absurd rfl hw1
    | cons _ _ => rfl
  have hde : dd.isEmpty = false := by
    cases dd with
    | nil => exact absurd rfl hd1
    | cons _ _ => rfl
  have h1 : matchWordSpace (w ++ ' ' :: (dd ++ sa :: sb :: ',' :: ' ' :: yy)) =
      some (w, dd ++ sa :: sb :: ',' :: ' ' :: yy) := by
    rw [matchWordSpace, hw_take, hw_drop, hwe]
    rfl
  have h2 : matchDigits (dd ++ sa :: sb :: ',' :: ' ' :: yy) =
      some (dd, sa :: sb :: ',' :: ' ' :: yy) := by
    rw [matchDigits, hd_take, hd_drop, hde]
    rfl
  have h3 : matchSuffixCommaSpace (sa :: sb :: ',' :: ' ' :: yy) = some yy := by
    show (if isLowerAZ sa && isLowerAZ sb then some yy else none) = some yy
    rw [hsa, hsb]
    rfl
  have h4 : matchYear4 yy = some yy := by
    rw [hy4]
    rw [hy4] at hy
    have g1 : isDigitChar y1 = true := hy y1 (by simp)
    have g2 : isDigitChar y2 = true := hy y2 (by simp)
    have g3 : isDigitChar y3 = true := hy y3 (by simp)
    have g4 : isDigitChar y4 = true := hy y4 (by simp)
    show (if isDigitChar y1 && isDigitChar y2 && isDigitChar y3 && isDigitChar y4 then
        some [y1, y2, y3, y4] else none) = some [y1, y2, y3, y4]
    rw [g1, g2, g3, g4]
    rfl
  rw [pyRegexDateMatch]
  show (do
    let (w2, r2) ← matchWordSpace (w ++ ' ' :: (dd ++ sa :: sb :: ',' :: ' ' :: yy))
    let (ds, r3) ← matchDigits r2
    let r5 ← matchSuffixCommaSpace r3
    let yy2 ← matchYear4 r5
    pure (String.mk w2, String.mk ds, String.mk yy2)) =
    some (String.mk w, String.mk dd, String.mk yy)
  rw [h1]
  show (do
    let (ds, r3) ← matchDigits (dd ++ sa :: sb :: ',' :: ' ' :: yy)
    let r5 ← matchSuffixCommaSpace r3
    let yy2 ← matchYear4 r5
    pure (String.mk w, String.mk ds, String.mk yy2)) =
    some (String.mk w, String.mk dd, String.mk yy)
  rw [h2]
  show (do
    let r5 ← matchSuffixCommaSpace (sa :: sb :: ',' :: ' ' :: yy)
    let yy2 ← matchYear4 r5
    pure (String.mk w, String.mk dd, String.mk yy2)) =
    some (String.mk w, String.mk dd, String.mk yy)
  rw [h3]
  show (do
    let yy2 ← matchYear4 yy
    pure (String.mk w, String.mk dd, String.mk yy2)) =
    some (String.mk w, String.mk dd, String.mk yy)
  rw [h4]
  rfl

/-- C10: formatting a valid date in the Regency display style and parsing
it back with `_parse_date` recovers exactly the `(year, month, day)` triple,
for every four-digit year, every month of `calendar_map` and every day that
is valid for that month. -/
theorem c10_date_roundtrip (y m d : Nat) (hy1 : 1000 ≤ y) (hy2 : y ≤ 9999)
    (hm1 : 1 ≤ m) (hm2 : m ≤ 12) (hd1 : 1 ≤ d) (hd2 : d ≤ daysInMonth y m) :
    parse_date (formatRegencyDate y m d) = Except.ok (y, m, d) := by
  obtain ⟨hmne, hmword, hmidx⟩ := monthName_facts m hm1 hm2
  obtain ⟨sa, sb, hsfx, hsa, hsb⟩ := get_day_suffix_shape d
  have hdata : (formatRegencyDate y m d).data =
      (monthName m).data ++ ' ' :: (natDigits d ++ sa :: sb :: ',' :: ' ' :: natDigits y) := by
    show (monthName m ++ " " ++ pyStr d ++ get_day_suffix d ++ ", " ++ pyStr y).data = _
    rw [String.data_append, String.data_append, String.data_append, String.data_append]
    rw [hsfx]
    show (monthName m).data ++ [' '] ++ (natDigits d) ++ [sa, sb] ++ [',', ' '] ++ natDigits y = _
    simp [List.append_assoc]
  have heq : formatRegencyDate y m d = String.mk
      ((monthName m).data ++ ' ' :: (natDigits d ++ sa :: sb :: ',' :: ' ' :: natDigits y)) := by
    rw [← hdata, string_mk_data]
  have hmatch : pyRegexDateMatch (formatRegencyDate y m d) =
      some (String.mk (monthName m).data, String.mk (natDigits d), String.mk (natDigits y)) := by
    rw [heq]
    exact pyRegexDateMatch_structured (monthName m).data (natDigits d) (natDigits y) sa sb
      hmne hmword (natDigits_ne_nil d) (natDigits_all_digit d) hsa hsb
      (natDigits_length_four y hy1 hy2) (natDigits_all_digit y)
  rw [parse_date, hmatch]
  show (match monthIndexOf (String.mk (monthName m).data) with
    | some i => pyDatetime (digitsVal (String.mk (natDigits y)).data) (i + 1)
        (digitsVal (String.mk (natDigits d)).data)
    | none => Except.error "ValueError: month not in calendar_map") = Except.ok (y, m, d)
  rw [string_mk_data, hmidx]
  show pyDatetime (digitsVal (natDigits y)) (m - 1 + 1) (digitsVal (natDigits d)) = Except.ok (y, m, d)
  rw [digitsVal_natDigits, digitsVal_natDigits]
  have hm' : m - 1 + 1 = m := by omega
  rw [hm', pyDatetime, if_pos ⟨by omega, hy2, hm1, hm2, hd1, hd2⟩]

/-- Witness for C10 at June 14th, 1812. -/
theorem c10_date_roundtrip_witness :
    1000 ≤ 1812 ∧ 1812 ≤ 9999 ∧ 1 ≤ 6 ∧ 6 ≤ 12 ∧ 1 ≤ 14 ∧ 14 ≤ daysInMonth 1812 6 ∧
      parse_date (formatRegencyDate 1812 6 14) = Except.ok (1812, 6, 14) :=
  ⟨by decide, by decide, by decide, by decide, by decide, by decide,
    c10_date_roundtrip 1812 6 14 (by decide) (by decide) (by decide) (by decide)
      (by decide) (by decide)⟩

/-! ## Claim C8 — chronological sorting and the 1800-01-01 fallback -/

/-- No month has more than 31 days. -/
theorem daysInMonth_le_31 (y m : Nat) : daysInMonth y m ≤ 31 := by
  have hfeb : (if isLeap y then 29 else 28) ≤ 31 := by
    by_cases hy : isLeap y
    · rw [if_pos hy]; omega
    · rw [if_neg hy]; omega
  rcases Nat.lt_or_ge m 13 with h | h
  · interval_cases m <;> simp [daysInMonth]
    exact hfeb
  · rw [daysInMonth]
    repeat rw [if_neg (by omega)]
    omega

/-- Any triple `_parse_date` succeeds with is an in-range date. -/
theorem parse_date_ok_bounds (s : String) (t : Nat × Nat × Nat)
    (h : parse_date s = Except.ok t) :
    1 ≤ t.1 ∧ t.1 ≤ 9999 ∧ 1 ≤ t.2.1 ∧ t.2.1 ≤ 12 ∧ 1 ≤ t.2.2 ∧ t.2.2 ≤ 31 := by
  rw [parse_date] at h
  cases hm : pyRegexDateMatch s with
  | none =>
    rw [hm] at h
    have h2 : (Except.ok (1800, 1, 1) : Except String (Nat × Nat × Nat)) = Except.ok t := h
    have ht : t = (1800, 1, 1) := by
      have := Except.ok.inj h2
      rw [← this]
    rw [ht]
    decide
  | some g =>
    rw [hm] at h
    obtain ⟨mStr, dStr, yStr⟩ := g
    have h2 : (match monthIndexOf mStr with
      | some i => pyDatetime (digitsVal yStr.data) (i + 1) (digitsVal dStr.data)
      | none => Except.error "ValueError: month not in calendar_map") = Except.ok t := h
    cases hi : monthIndexOf mStr with
    | none =>
      rw [hi] at h2
      cases h2
    | some i =>
      rw [hi] at h2
      simp only [pyDatetime] at h2
      by_cases hc : 1 ≤ digitsVal yStr.data ∧ digitsVal yStr.data ≤ 9999 ∧ 1 ≤ i + 1 ∧
          i + 1 ≤ 12 ∧ 1 ≤ digitsVal dStr.data ∧
          digitsVal dStr.data ≤ daysInMonth (digitsVal yStr.data) (i + 1)
      · rw [if_pos hc] at h2
        have ht : t = (digitsVal yStr.data, i + 1, digitsVal dStr.data) := by
          have := Except.ok.inj h2
          rw [← this]
        rw [ht]
        have hlast := daysInMonth_le_31 (digitsVal yStr.data) (i + 1)
        exact ⟨hc.1, hc.2.1, hc.2.2.1, hc.2.2.2.1, hc.2.2.2.2.1,
          le_trans hc.2.2.2.2.2 hlast⟩
      · rw [if_neg hc] at h2
        cases h2

/-- Key order implies chronological order on in-range triples. -/
theorem dateLE_of_enc_le (t u : Nat × Nat × Nat)
    (ht : 1 ≤ t.1 ∧ t.1 ≤ 9999 ∧ 1 ≤ t.2.1 ∧ t.2.1 ≤ 12 ∧ 1 ≤ t.2.2 ∧ t.2.2 ≤ 31)
    (hu : 1 ≤ u.1 ∧ u.1 ≤ 9999 ∧ 1 ≤ u.2.1 ∧ u.2.1 ≤ 12 ∧ 1 ≤ u.2.2 ∧ u.2.2 ≤ 31)
    (h : dateKeyEnc t ≤ dateKeyEnc u) : dateLE t u := by
  rw [dateKeyEnc, dateKeyEnc] at h
  rw [dateLE]
  omega

/-- Elements of an insertion are the inserted element or old elements. -/
theorem insertByKey_mem : ∀ (l : List (Nat × Event)) (x y : Nat × Event),
    y ∈ insertByKey x l → y = x ∨ y ∈ l := by
  intro l
  induction l with
  | nil =>
    intro x y hy
    left
    simpa [insertByKey] using hy
  | cons a t ih =>
    intro x y hy
    rw [insertByKey] at hy
    by_cases hc : a.1 ≤ x.1
    · rw [if_pos hc] at hy
      rcases List.mem_cons.mp hy with hy1 | hy2
      · right; rw [hy1]; exact List.mem_cons_self a t
      · rcases ih x y hy2 with h | h
        · left; exact h
        · right; exact List.mem_cons_of_mem a h
    · rw [if_neg hc] at hy
      rcases List.mem_cons.mp hy with hy1 | hy2
      · left; exact hy1
      · right; exact hy2

/-- Insertion preserves sortedness by key. -/
theorem insertByKey_pairwise : ∀ (l : List (Nat × Event)) (x : Nat × Event),
    l.Pairwise (fun p q => p.1 ≤ q.1) → (insertByKey x l).Pairwise (fun p q => p.1 ≤ q.1) := by
  intro l
  induction l with
  | nil =>
    intro x _
    simp [insertByKey]
  | cons a t ih =>
    intro x hp
    rw [List.pairwise_cons] at hp
    obtain ⟨ha, ht⟩ := hp
    rw [insertByKey]
    by_cases hc : a.1 ≤ x.1
    · rw [if_pos hc]
      rw [List.pairwise_cons]
      refine ⟨?_, ih x ht⟩
      intro y hy
      rcases insertByKey_mem t x y hy with rfl | hmem
      · exact hc
      · exact ha y hmem
    · rw [if_neg hc]
      rw [List.pairwise_cons]
      refine ⟨?_, List.Pairwise.cons ha ht⟩
      intro y hy
      rcases List.mem_cons.mp hy with rfl | hmem
      · omega
      · have := ha y hmem
        omega

/-- The insertion sort is sorted by key, starting from any sorted state. -/
theorem foldl_insert_pairwise : ∀ (l acc : List (Nat × Event)),
    acc.Pairwise (fun p q => p.1 ≤ q.1) →
    (l.foldl (fun acc x => insertByKey x acc) acc).Pairwise (fun p q => p.1 ≤ q.1) := by
  intro l
  induction l with
  | nil => intro acc h; exact h
  | cons a t ih =>
    intro acc h
    exact ih (insertByKey a acc) (insertByKey_pairwise acc a h)

/-- Elements after insertion-sorting, from any start, come from the start
or the sorted list. -/
theorem foldl_insert_mem : ∀ (l acc : List (Nat × Event)) (y : Nat × Event),
    y ∈ l.foldl (fun acc x => insertByKey x acc) acc → y ∈ acc ∨ y ∈ l := by
  intro l
  induction l with
  | nil => intro acc y h; left; exact h
  | cons a t ih =>
    intro acc y h
    rcases ih (insertByKey a acc) y h with h2 | h2
    · rcases insertByKey_mem acc a y h2 with h3 | h3
      · right; rw [h3]; exact List.mem_cons_self a t
      · left; exact h3
    · right; exact List.mem_cons_of_mem a h2

/-- The stable insertion sort is sorted by key. -/
theorem insSortByKey_pairwise (l : List (Nat × Event)) :
    (insSortByKey l).Pairwise (fun p q => p.1 ≤ q.1) :=
  foldl_insert_pairwise l [] List.Pairwise.nil

/-- Every element of the sorted list is an element of the input. -/
theorem insSortByKey_mem (l : List (Nat × Event)) (y : Nat × Event)
    (h : y ∈ insSortByKey l) : y ∈ l := by
  rcases foldl_insert_mem l [] y h with h2 | h2
  · cases h2
  · exact h2

/-- Members of a successful `exMapM` image come from members of the input. -/
theorem exMapM_ok_mem {α β : Type} (f : α → Except String β) :
    ∀ (l : List α) (r : List β), exMapM f l = Except.ok r →
      ∀ y ∈ r, ∃ x ∈ l, f x = Except.ok y := by
  intro l
  induction l with
  | nil =>
    intro r h y hy
    have : r = [] := by
      have := Except.ok.inj h
      rw [← this]
    rw [this] at hy
    cases hy
  | cons a t ih =>
    intro r h y hy
    rw [exMapM] at h
    cases hfa : f a with
    | error e => rw [hfa] at h; cases h
    | ok b =>
      rw [hfa] at h
      cases hft : exMapM f t with
      | error e => rw [hft] at h; cases h
      | ok ys =>
        rw [hft] at h
        have hr : r = b :: ys := by
          have := Except.ok.inj h
          rw [← this]
        rw [hr] at hy
        rcases List.mem_cons.mp hy with rfl | hy2
        · exact ⟨a, List.mem_cons_self a t, hfa⟩
        · obtain ⟨x, hx, hfx⟩ := ih ys hft y hy2
          exact ⟨x, List.mem_cons_of_mem a hx, hfx⟩

/-- A successfully sorted event list is in chronological order of the
parsed `(year, month, day)` triples. -/
theorem pySortEvents_sorted (evs out : List Event)
    (h : pySortEvents evs = Except.ok out) :
    out.Pairwise (fun e1 e2 => dateLE (parsed_triple e1) (parsed_triple e2)) := by
  rw [pySortEvents] at h
  cases hk : exMapM (fun e => (parse_date e.date).map (fun t => (dateKeyEnc t, e))) evs with
  | error e => rw [hk] at h; cases h
  | ok keyed =>
    rw [hk] at h
    have hout : out = (insSortByKey keyed).map (fun p => p.2) := by
      have := Except.ok.inj h
      rw [← this]
    have hfacts : ∀ p ∈ keyed, ∃ t, parse_date p.2.date = Except.ok t ∧ dateKeyEnc t = p.1 := by
      intro p hp
      obtain ⟨x, _, hfx⟩ := exMapM_ok_mem _ evs keyed hk p hp
      cases hparse : parse_date x.date with
      | error e => rw [hparse] at hfx; cases hfx
      | ok t =>
        rw [hparse] at hfx
        have hpx : (dateKeyEnc t, x) = p := Except.ok.inj hfx
        refine ⟨t, ?_, ?_⟩
        · rw [← hpx]; exact hparse
        · rw [← hpx]
    rw [hout, List.pairwise_map]
    have hsorted := insSortByKey_pairwise keyed
    refine List.Pairwise.imp_of_mem ?_ hsorted
    intro p q hp hq hle
    obtain ⟨tp, hparsep, hencp⟩ := hfacts p (insSortByKey_mem keyed p hp)
    obtain ⟨tq, hparseq, hencq⟩ := hfacts q (insSortByKey_mem keyed q hq)
    have htriplep : parsed_triple p.2 = tp := by rw [parsed_triple, hparsep]
    have htripleq : parsed_triple q.2 = tq := by rw [parsed_triple, hparseq]
    rw [htriplep, htripleq]
    exact dateLE_of_enc_le tp tq (parse_date_ok_bounds _ _ hparsep)
      (parse_date_ok_bounds _ _ hparseq) (by omega)

/-- C8: the event list `extract_story_dates` returns (whose order the
renderer preserves row for row) is in non-decreasing chronological order of
the `(year, month-index, day)` triples `_parse_date` reads off the display
strings; and on any string the regex does not match, `_parse_date` does not
raise and yields the `datetime(1800, 1, 1)` sentinel. -/
theorem c8_sorted_and_fallback :
    (∀ (story : String) (characters : List CharT) (season : String) (regency_year : Nat)
        (numO : Nat) (choiceO : List Nat → Nat) (sampleO randO : Nat → Nat) (evs : List Event),
      extract_story_dates story characters season regency_year numO choiceO sampleO randO =
        Except.ok evs →
      evs.Pairwise (fun e1 e2 => dateLE (parsed_triple e1) (parsed_triple e2))) ∧
    (∀ s : String, pyRegexDateMatch s = none → parse_date s = Except.ok (1800, 1, 1)) := by
  constructor
  · intro story characters season regency_year numO choiceO sampleO randO evs h
    rw [extract_story_dates] at h
    cases hb : extract_story_dates_build story characters season regency_year numO choiceO
        sampleO randO with
    | error e => rw [hb] at h; cases h
    | ok l =>
      rw [hb] at h
      exact pySortEvents_sorted l evs h
  · intro s h
    rw [parse_date, h]

/-- Witness for C8 at a concrete story, season and oracles (the event list
is the one `extract_story_dates` returns there), plus the sentinel fallback
at the unmatched date string "March 1". -/
theorem c8_sorted_and_fallback_witness :
    ([Event.mk "June 1st, 1805" "A",
      Event.mk "June 1st, 1805" "A letter arrives with unexpected news",
      Event.mk "June 1st, 1805" "A letter arrives with unexpected news"] : List Event).Pairwise
        (fun e1 e2 => dateLE (parsed_triple e1) (parsed_triple e2)) ∧
      parse_date "March 1" = Except.ok (1800, 1, 1) :=
  ⟨c8_sorted_and_fallback.1 "A" [] "summer" 1805 0 (fun _ => 0) (fun _ => 0) (fun _ => 0)
      [Event.mk "June 1st, 1805" "A",
        Event.mk "June 1st, 1805" "A letter arrives with unexpected news",
        Event.mk "June 1st, 1805" "A letter arrives with unexpected news"] (by rfl),
    c8_sorted_and_fallback.2 "March 1" (by rfl)⟩
